import Mathlib

/-!
Verification development for the email-confirmation models
(src/emailconfirmation/models.py): EmailAddress / EmailConfirmation
records, primary-address promotion, key generation, confirmation and
expiration sweeping, shallowly embedded as pure functions over an
explicit database state.

External collaborators (mail delivery, URL building, template rendering,
signal dispatch) perform no state change on the modelled records and are
omitted; the ambient clock and the random draw feeding key generation are
passed as explicit arguments.
-/

/- ---------------------------------------------------------------- -/
/- SHA-1, the hash behind sha_constructor(...).hexdigest()          -/
/- ---------------------------------------------------------------- -/

/-- 32-bit modulus used throughout the SHA-1 rounds. -/
def w32 : Nat := 4294967296

/-- Rotate a 32-bit word left by n bits. -/
def rotl32 (n x : Nat) : Nat :=
  (((x % w32) <<< n) ||| ((x % w32) >>> (32 - n))) % w32

/-- The five 32-bit working registers of SHA-1. -/
structure Sha1State where
  a : Nat
  b : Nat
  c : Nat
  d : Nat
  e : Nat
deriving DecidableEq

def sha1Init : Sha1State :=
  ⟨0x67452301, 0xEFCDAB89, 0x98BADCFE, 0x10325476, 0xC3D2E1F0⟩

/-- Round function: choice, parity, majority, parity. -/
def sha1F (i b c d : Nat) : Nat :=
  if i < 20 then (b &&& c) ||| ((b ^^^ 0xFFFFFFFF) &&& d)
  else if i < 40 then (b ^^^ c) ^^^ d
  else if i < 60 then ((b &&& c) ||| (b &&& d)) ||| (c &&& d)
  else (b ^^^ c) ^^^ d

/-- Round constants. -/
def sha1K (i : Nat) : Nat :=
  if i < 20 then 0x5A827999
  else if i < 40 then 0x6ED9EBA1
  else if i < 60 then 0x8F1BBCDC
  else 0xCA62C1D6

/-- One SHA-1 round, consuming the pair (round index, schedule word). -/
def sha1Round (st : Sha1State) (iw : Nat × Nat) : Sha1State :=
  let temp :=
    (rotl32 5 st.a + sha1F iw.1 st.b st.c st.d + st.e + sha1K iw.1 + iw.2) % w32
  ⟨temp, st.a, rotl32 30 st.b, st.c, st.d⟩

/-- Big-endian 32-bit words from a byte list (4 bytes per word). -/
def bytesToWords : List Nat → List Nat
  | a :: b :: c :: d :: rest =>
      (((a * 256 + b) * 256 + c) * 256 + d) :: bytesToWords rest
  | _ => []

/-- Message-schedule extension, most recent word first in the accumulator. -/
def extendLoop : Nat → List Nat → List Nat
  | 0, acc => acc
  | n + 1, acc =>
      extendLoop n
        (rotl32 1 (((acc.getD 2 0) ^^^ (acc.getD 7 0)) ^^^
          ((acc.getD 13 0) ^^^ (acc.getD 15 0))) :: acc)

/-- Extend 16 chunk words to the 80-word schedule. -/
def extendWords (ws : List Nat) : List Nat :=
  (extendLoop 64 ws.reverse).reverse

/-- Compress one 64-byte chunk into the running state. -/
def sha1Chunk (st : Sha1State) (chunk : List Nat) : Sha1State :=
  let ws := extendWords (bytesToWords chunk)
  let r := ((List.range 80).zip ws).foldl sha1Round st
  ⟨(st.a + r.a) % w32, (st.b + r.b) % w32, (st.c + r.c) % w32,
   (st.d + r.d) % w32, (st.e + r.e) % w32⟩

/-- Standard SHA-1 padding: 0x80, zeros to 56 mod 64, 8-byte bit length. -/
def sha1Pad (msg : List Nat) : List Nat :=
  msg ++ [128] ++ List.replicate ((119 - (msg.length % 64)) % 64) 0 ++
    (List.range 8).map (fun i => ((8 * msg.length) >>> (8 * (7 - i))) % 256)

/-- Split into 64-byte chunks (fuel-based recursion). -/
def chunksGo : Nat → List Nat → List (List Nat)
  | 0, _ => []
  | _ + 1, [] => []
  | n + 1, l => l.take 64 :: chunksGo n (l.drop 64)

def chunks64 (l : List Nat) : List (List Nat) := chunksGo l.length l

/-- The SHA-1 digest of a byte string, as the five final registers. -/
def sha1Digest (msg : List Nat) : Sha1State :=
  (chunks64 (sha1Pad msg)).foldl sha1Chunk sha1Init

/-- The sixteen lowercase hex digits. -/
def hexDigits : List Char := "0123456789abcdef".toList

/-- A 32-bit word as 8 lowercase hex characters, big-endian nibbles. -/
def toHex8 (w : Nat) : List Char :=
  (List.range 8).map (fun i => Nat.digitChar ((w >>> (4 * (7 - i))) % 16))

/-- UTF-8 bytes of a string as a list of Nat. -/
def strBytes (s : String) : List Nat :=
  s.toUTF8.toList.map (fun b => b.toNat)

/-- hexdigest(): the 40-character lowercase hex rendering of the digest. -/
def sha1Hex (s : String) : String :=
  let d := sha1Digest (strBytes s)
  String.mk (toHex8 d.a ++ toHex8 d.b ++ toHex8 d.c ++ toHex8 d.d ++ toHex8 d.e)

/- ---------------------------------------------------------------- -/
/- Data model                                                       -/
/- ---------------------------------------------------------------- -/

/-- django.contrib.auth User, restricted to the fields this app touches. -/
structure UserProfile where
  id : Nat
  username : String
  email : String
deriving DecidableEq

/-- EmailAddress row: user FK (by id), email, verified and primary flags
(both default False on creation). -/
structure EmailAddress where
  id : Nat
  user : Nat
  email : String
  verified : Bool
  primary : Bool
deriving DecidableEq

/-- EmailConfirmation row: address FK (by id), created_at timestamp and the
40-character key.  The key column carries no unique constraint. -/
structure EmailConfirmation where
  id : Nat
  email_address : Nat
  created_at : Int
  key : String
deriving DecidableEq

/-- The database state: the three tables plus autoincrement counters. -/
structure DB where
  users : List UserProfile
  addresses : List EmailAddress
  confirmations : List EmailConfirmation
  nextAddressId : Nat
  nextConfirmationId : Nat
deriving DecidableEq

/-- Django settings consulted via getattr with a default. -/
structure Settings where
  EMAIL_CONFIRMATION_DAYS : Option Nat
  EMAIL_CONFIRMATION_OVERWRITE_USERNAME : Option Bool
deriving DecidableEq

/-- getattr(settings, EMAIL_CONFIRMATION_DAYS, 7). -/
def confirmationDays (s : Settings) : Nat :=
  s.EMAIL_CONFIRMATION_DAYS.getD 7

/-- getattr(settings, EMAIL_CONFIRMATION_OVERWRITE_USERNAME, False). -/
def overwriteUsername (s : Settings) : Bool :=
  s.EMAIL_CONFIRMATION_OVERWRITE_USERNAME.getD false

/-- ORM exceptions that can escape the modelled operations. -/
inductive DjangoError where
  | doesNotExist
  | multipleObjectsReturned
  | integrityError
deriving DecidableEq

/-- QuerySet.get on a predicate: exactly one match or an exception. -/
def getOne {α : Type} (p : α → Bool) (l : List α) : Except DjangoError α :=
  match l.filter p with
  | [] => .error .doesNotExist
  | [a] => .ok a
  | _ => .error .multipleObjectsReturned

/-- UPDATE of an address row by primary key. -/
def saveAddress (db : DB) (a : EmailAddress) : DB :=
  { db with addresses := db.addresses.map (fun x => if x.id == a.id then a else x) }

/-- UPDATE of a user row by primary key. -/
def saveUser (db : DB) (u : UserProfile) : DB :=
  { db with users := db.users.map (fun x => if x.id == u.id then u else x) }

/-- Foreign-key dereference of a user id. -/
def getUser (db : DB) (uid : Nat) : Except DjangoError UserProfile :=
  match db.users.find? (fun u => u.id == uid) with
  | some u => .ok u
  | none => .error .doesNotExist

/-- Foreign-key dereference of an address id. -/
def getAddress (db : DB) (aid : Nat) : Except DjangoError EmailAddress :=
  match db.addresses.find? (fun a => a.id == aid) with
  | some a => .ok a
  | none => .error .doesNotExist

/- ---------------------------------------------------------------- -/
/- EmailAddressManager / EmailAddress operations                    -/
/- ---------------------------------------------------------------- -/

/-- EmailAddressManager.get_primary: get(user=user, primary=True), catching
only DoesNotExist (returned as none). -/
def get_primary (db : DB) (uid : Nat) : Except DjangoError (Option EmailAddress) :=
  match getOne (fun a => a.user == uid && a.primary) db.addresses with
  | .ok a => .ok (some a)
  | .error .doesNotExist => .ok none
  | .error e => .error e

/-- Demotion of the old primary inside set_as_primary. -/
def clearOldPrimary (db : DB) (oldp : Option EmailAddress) : DB :=
  match oldp with
  | some old => saveAddress db { old with primary := false }
  | none => db

/-- EmailAddress.set_as_primary, acting on the in-memory record self.
Returns the updated database and the updated self (primary set), matching
the mutation of the Python object. -/
def set_as_primary (s : Settings) (db : DB) (self : EmailAddress) :
    Except DjangoError (DB × EmailAddress) :=
  match get_primary db self.user with
  | .error e => .error e
  | .ok oldp =>
    let db1 := clearOldPrimary db oldp
    let self2 := { self with primary := true }
    let db2 := saveAddress db1 self2
    match getUser db2 self.user with
    | .error e => .error e
    | .ok u =>
      let u1 := { u with email := self.email }
      let u2 := if overwriteUsername s then { u1 with username := self.email } else u1
      .ok (saveUser db2 u2, self2)

/- ---------------------------------------------------------------- -/
/- EmailConfirmationManager / EmailConfirmation operations          -/
/- ---------------------------------------------------------------- -/

/-- EmailConfirmationManager.generate_key: sha of the join of str(now()),
str(email) and the sha hexdigest of str(random()). -/
def generate_key (email : String) (tnow : Int) (rand : String) : String :=
  sha1Hex (toString tnow ++ email ++ sha1Hex rand)

/-- EmailConfirmationManager.create_emailconfirmation. -/
def create_emailconfirmation (db : DB) (ea : EmailAddress) (tnow : Int)
    (rand : String) : DB × EmailConfirmation :=
  let c : EmailConfirmation :=
    { id := db.nextConfirmationId, email_address := ea.id,
      created_at := tnow, key := generate_key ea.email tnow rand }
  ({ db with confirmations := db.confirmations ++ [c]
             nextConfirmationId := db.nextConfirmationId + 1 }, c)

/-- EmailConfirmationManager.send_confirmation: creates the confirmation;
URL building, template rendering, mail dispatch and the sent signal touch no
modelled state. -/
def send_confirmation (db : DB) (ea : EmailAddress) (tnow : Int)
    (rand : String) : DB × EmailConfirmation :=
  create_emailconfirmation db ea tnow rand

/-- EmailConfirmation.key_expired: created_at + timedelta(days) <= now,
with days from EMAIL_CONFIRMATION_DAYS defaulting to 7. -/
def key_expired (s : Settings) (tnow : Int) (c : EmailConfirmation) : Bool :=
  let expiration_date := c.created_at + (confirmationDays s : Int) * 86400
  decide (expiration_date ≤ tnow)

/-- EmailAddressManager.add_email: create the row (IntegrityError on a
duplicate (user, email) pair is caught and returned as none), then send the
confirmation. -/
def add_email (db : DB) (uid : Nat) (email : String) (tnow : Int)
    (rand : String) : DB × Option EmailAddress :=
  if db.addresses.any (fun a => a.user == uid && a.email == email) then
    (db, none)
  else
    let ea : EmailAddress :=
      { id := db.nextAddressId, user := uid, email := email,
        verified := false, primary := false }
    let db1 : DB :=
      { db with addresses := db.addresses ++ [ea]
                nextAddressId := db.nextAddressId + 1 }
    let db2 := (send_confirmation db1 ea tnow rand).1
    (db2, some ea)

/-- EmailConfirmationManager.confirm_email: get(key=key) catching only
DoesNotExist; an expired key falls through and returns None with no state
change; a live key marks the address verified, optionally promotes it, and
saves it. -/
def confirm_email (s : Settings) (tnow : Int) (db : DB) (key : String)
    (make_primary : Bool) : Except DjangoError (DB × Option EmailAddress) :=
  match getOne (fun c => c.key == key) db.confirmations with
  | .error .doesNotExist => .ok (db, none)
  | .error e => .error e
  | .ok confirmation =>
    if key_expired s tnow confirmation then .ok (db, none)
    else
      match getAddress db confirmation.email_address with
      | .error e => .error e
      | .ok ea0 =>
        let ea1 := { ea0 with verified := true }
        match (if make_primary then set_as_primary s db ea1 else .ok (db, ea1)) with
        | .error e => .error e
        | .ok (db1, ea2) => .ok (saveAddress db1 ea2, some ea2)

/-- Row DELETE of a confirmation by primary key. -/
def deleteConfirmation (db : DB) (cid : Nat) : DB :=
  { db with confirmations := db.confirmations.filter (fun c => !(c.id == cid)) }

/-- EmailConfirmationManager.delete_expired_confirmations: iterate the
current rows and delete each one whose key has expired. -/
def delete_expired_confirmations (s : Settings) (tnow : Int) (db : DB) : DB :=
  db.confirmations.foldl
    (fun acc c => if key_expired s tnow c then deleteConfirmation acc c.id else acc)
    db

/- ---------------------------------------------------------------- -/
/- Derived predicates                                               -/
/- ---------------------------------------------------------------- -/

/-- At most one address row for this user carries the primary flag. -/
def atMostOnePrimary (db : DB) (uid : Nat) : Prop :=
  (db.addresses.filter (fun a => a.user == uid && a.primary)).length ≤ 1

instance (db : DB) (uid : Nat) : Decidable (atMostOnePrimary db uid) := by
  unfold atMostOnePrimary
  infer_instance

/-- No two stored confirmations share a key. -/
def keysUnique (db : DB) : Prop :=
  (db.confirmations.map (fun c => c.key)).Nodup

instance (db : DB) : Decidable (keysUnique db) := by
  unfold keysUnique
  infer_instance

/- ---------------------------------------------------------------- -/
/- Helper lemmas                                                    -/
/- ---------------------------------------------------------------- -/

theorem map_eq_self_of_mem {α : Type} {f : α → α} {l : List α}
    (h : ∀ x ∈ l, f x = x) : l.map f = l := by
  induction l with
  | nil => rfl
  | cons x xs ih =>
    simp only [List.map_cons, h x (by simp)]
    rw [ih (fun y hy => h y (by simp [hy]))]

theorem filter_of_map {α β : Type} (f : α → β) (p : β → Bool) (l : List α) :
    (l.map f).filter p = (l.filter (fun x => p (f x))).map f := by
  induction l with
  | nil => rfl
  | cons x xs ih =>
    by_cases h : p (f x) <;> simp [h, ih]

theorem nodup_all_eq_length_le_one {α : Type} {l : List α} (hn : l.Nodup)
    (v : α) (h : ∀ x ∈ l, x = v) : l.length ≤ 1 := by
  match l with
  | [] => simp
  | [x] => simp
  | x :: y :: t =>
    exfalso
    have hx := h x (by simp)
    have hy := h y (by simp)
    have : x ∉ y :: t := (List.nodup_cons.mp hn).1
    exact this (by simp [hx, hy])

theorem digitChar_hex (x : Nat) :
    hexDigits.contains (Nat.digitChar (x % 16)) = true := by
  have key : ∀ m, m < 16 → hexDigits.contains (Nat.digitChar m) = true := by decide
  exact key (x % 16) (Nat.mod_lt x (by decide))

theorem toHex8_length (w : Nat) : (toHex8 w).length = 8 := by
  simp [toHex8]

theorem toHex8_all (w : Nat) :
    (toHex8 w).all (fun c => hexDigits.contains c) = true := by
  rw [List.all_eq_true]
  intro c hc
  simp only [toHex8, List.mem_map] at hc
  obtain ⟨i, _, hi⟩ := hc
  simpa [← hi] using digitChar_hex ((w >>> (4 * (7 - i))))

theorem sha1Hex_length (s : String) : (sha1Hex s).length = 40 := by
  show (sha1Hex s).data.length = 40
  simp [sha1Hex, toHex8_length]

theorem toHex8_mem (w : Nat) : ∀ c ∈ toHex8 w, c ∈ hexDigits := by
  intro c hc
  simp only [toHex8, List.mem_map] at hc
  obtain ⟨i, _, hi⟩ := hc
  rw [← hi]
  exact List.elem_iff.mp (digitChar_hex (w >>> (4 * (7 - i))))

theorem sha1Hex_chars (s : String) :
    (sha1Hex s).data.all (fun c => hexDigits.contains c) = true := by
  rw [List.all_eq_true]
  intro c hc
  rw [List.elem_iff]
  simp only [sha1Hex, List.mem_append] at hc
  rcases hc with (((hc | hc) | hc) | hc) | hc <;> exact toHex8_mem _ c hc

/- ---------------------------------------------------------------- -/
/- C9, C6, C2, C4                                                   -/
/- ---------------------------------------------------------------- -/

/-- C9: generate_key returns a 40-character lowercase hexadecimal string for
every input, obtained by hashing the concatenation of the timestamp
rendering, the email string, and the hash of the fresh random draw. -/
theorem generate_key_spec (email : String) (tnow : Int) (rand : String) :
    generate_key email tnow rand = sha1Hex (toString tnow ++ email ++ sha1Hex rand) ∧
    (generate_key email tnow rand).length = 40 ∧
    (generate_key email tnow rand).data.all (fun c => hexDigits.contains c) = true :=
  ⟨rfl, sha1Hex_length _, sha1Hex_chars _⟩

/-- C6: key_expired is true exactly when created_at plus the configured
window (EMAIL_CONFIRMATION_DAYS days, defaulting to 7, in seconds) is at
most the current time; the boundary instant itself counts as expired. -/
theorem key_expired_spec (s : Settings) (tnow : Int) (c : EmailConfirmation) :
    (key_expired s tnow c = true ↔
      c.created_at + (s.EMAIL_CONFIRMATION_DAYS.getD 7 : Int) * 86400 ≤ tnow) ∧
    key_expired s (c.created_at + (s.EMAIL_CONFIRMATION_DAYS.getD 7 : Int) * 86400) c
      = true := by
  refine ⟨?_, ?_⟩
  · simp [key_expired, confirmationDays]
  · simp [key_expired, confirmationDays]

/-- C2: confirm_email returns not-found (None, with the database unchanged
and no exception) both when no stored confirmation carries the key and when
the unique match is expired; the two outcomes are the same value. -/
theorem confirm_email_not_found (s : Settings) (tnow : Int) (db : DB)
    (k : String) (mp : Bool) (c : EmailConfirmation) :
    ((∀ x ∈ db.confirmations, x.key ≠ k) →
        confirm_email s tnow db k mp = .ok (db, none)) ∧
    (db.confirmations.filter (fun x => x.key == k) = [c] →
      key_expired s tnow c = true →
        confirm_email s tnow db k mp = .ok (db, none)) := by
  refine ⟨?_, ?_⟩
  · intro h
    have hf : db.confirmations.filter (fun x => x.key == k) = [] :=
      List.filter_eq_nil_iff.mpr (fun a ha => by simpa using h a ha)
    simp [confirm_email, getOne, hf]
  · intro hf hexp
    simp [confirm_email, getOne, hf, hexp]

theorem confirm_email_not_found_witness :
    confirm_email ⟨none, none⟩ 5 ⟨[], [], [⟨100, 10, 0, "kA"⟩], 0, 0⟩ "kB" true
        = .ok (⟨[], [], [⟨100, 10, 0, "kA"⟩], 0, 0⟩, none) ∧
    confirm_email ⟨none, none⟩ 700000 ⟨[], [], [⟨100, 10, 0, "kA"⟩], 0, 0⟩ "kA" true
        = .ok (⟨[], [], [⟨100, 10, 0, "kA"⟩], 0, 0⟩, none) :=
  ⟨(confirm_email_not_found ⟨none, none⟩ 5 ⟨[], [], [⟨100, 10, 0, "kA"⟩], 0, 0⟩
      "kB" true ⟨100, 10, 0, "kA"⟩).1 (by decide),
   (confirm_email_not_found ⟨none, none⟩ 700000 ⟨[], [], [⟨100, 10, 0, "kA"⟩], 0, 0⟩
      "kA" true ⟨100, 10, 0, "kA"⟩).2 (by rfl) (by decide)⟩

/-- C4: a second add_email with an existing (user, email) pair reports the
duplicate to the caller as the distinct not-created outcome (None), leaves
the first record (and the whole database) unchanged, and creates nothing. -/
theorem add_email_duplicate (db : DB) (uid : Nat) (email : String)
    (tnow : Int) (rand : String)
    (hdup : ∃ a ∈ db.addresses, a.user = uid ∧ a.email = email) :
    add_email db uid email tnow rand = (db, none) := by
  obtain ⟨a, ha, h1, h2⟩ := hdup
  have hany : db.addresses.any (fun a => a.user == uid && a.email == email) = true :=
    List.any_eq_true.mpr ⟨a, ha, by simp [h1, h2]⟩
  simp [add_email, hany]

theorem add_email_duplicate_witness :
    add_email ⟨[], [⟨10, 1, "a@x.com", false, false⟩], [], 11, 0⟩ 1 "a@x.com" 5 "r"
      = (⟨[], [⟨10, 1, "a@x.com", false, false⟩], [], 11, 0⟩, none) :=
  add_email_duplicate ⟨[], [⟨10, 1, "a@x.com", false, false⟩], [], 11, 0⟩ 1
    "a@x.com" 5 "r" ⟨⟨10, 1, "a@x.com", false, false⟩, by decide, rfl, rfl⟩

/- ---------------------------------------------------------------- -/
/- C8: key uniqueness                                               -/
/- ---------------------------------------------------------------- -/

/-- The outcome of a unique lookup, as a function of the first match. -/
def lookupResult {α : Type} (o : Option α) : Except DjangoError α :=
  match o with
  | some a => .ok a
  | none => .error .doesNotExist

theorem getOne_eq_find_of_le_one {α : Type} (p : α → Bool) (l : List α)
    (h : (l.filter p).length ≤ 1) :
    getOne p l = lookupResult (l.find? p) := by
  induction l with
  | nil => rfl
  | cons x xs ih =>
    by_cases hx : p x
    · have hf : (x :: xs).filter p = x :: xs.filter p := List.filter_cons_of_pos hx
      have hxs : xs.filter p = [] := by
        rw [hf] at h
        simp only [List.length_cons] at h
        exact List.eq_nil_of_length_eq_zero (by omega)
      rw [getOne, hf, hxs, List.find?_cons_of_pos xs hx, lookupResult]
    · have hf : (x :: xs).filter p = xs.filter p := List.filter_cons_of_neg hx
      have hrec := ih (by rwa [hf] at h)
      rw [getOne, hf, List.find?_cons_of_neg xs hx, ← getOne, hrec]

theorem filter_beq_len_le_one {α β : Type} [BEq β] [LawfulBEq β] (g : α → β)
    (l : List α) (hn : (l.map g).Nodup) (v : β) :
    (l.filter (fun x => g x == v)).length ≤ 1 := by
  induction l with
  | nil => simp
  | cons x xs ih =>
    rw [List.map_cons, List.nodup_cons] at hn
    by_cases hx : g x == v
    · have hxs : xs.filter (fun x => g x == v) = [] := by
        rw [List.filter_eq_nil_iff]
        intro a ha hav
        refine hn.1 ?_
        rw [List.mem_map]
        refine ⟨a, ha, ?_⟩
        have h1 : g a = v := by simpa using hav
        have h2 : g x = v := by simpa using hx
        rw [h1, h2]
      rw [List.filter_cons, if_pos hx, hxs]
      simp
    · rw [List.filter_cons, if_neg hx]
      exact ih hn.2

/-- C8 (amended): the model does not enforce key uniqueness, but whenever
stored keys are pairwise distinct, the lookup performed by confirm_email is
well-defined: get(key=key) is determined by the first (hence only) match and
never raises MultipleObjectsReturned. -/
theorem confirm_lookup_wellDefined (db : DB) (k : String) (hk : keysUnique db) :
    getOne (fun c => c.key == k) db.confirmations
      = lookupResult (db.confirmations.find? (fun c => c.key == k)) := by
  unfold keysUnique at hk
  exact getOne_eq_find_of_le_one _ _
    (filter_beq_len_le_one (fun c => c.key) db.confirmations hk k)

theorem confirm_lookup_wellDefined_witness :
    getOne (fun c => c.key == "kA")
        (⟨[], [], [⟨100, 10, 0, "kA"⟩], 0, 0⟩ : DB).confirmations
      = .ok ⟨100, 10, 0, "kA"⟩ :=
  (confirm_lookup_wellDefined ⟨[], [], [⟨100, 10, 0, "kA"⟩], 0, 0⟩ "kA"
      (by decide)).trans (by rfl)

/-- Reachable state used to refute the key-uniqueness invariant: the same
address gets two confirmations created at the same instant with the same
random draw. -/
def ceAddr : EmailAddress := ⟨0, 1, "a@x.com", false, false⟩

def ceDB0 : DB := ⟨[⟨1, "u", "u@x.com"⟩], [ceAddr], [], 1, 0⟩

def ceDB2 : DB :=
  (create_emailconfirmation (create_emailconfirmation ceDB0 ceAddr 5 "r").1
    ceAddr 5 "r").1

/-- C8 (counterexample): after two create_emailconfirmation calls with equal
timestamp and random draw, two live confirmations share one key, and the
lookup by that key raises MultipleObjectsReturned instead of matching one
record. -/
theorem keysUnique_counterexample :
    ¬ keysUnique ceDB2 ∧
    confirm_email ⟨none, none⟩ 5 ceDB2 (generate_key "a@x.com" 5 "r") true
      = .error .multipleObjectsReturned := by
  constructor
  · intro h
    have h2 : ceDB2.confirmations.map (fun c => c.key)
        = [generate_key "a@x.com" 5 "r", generate_key "a@x.com" 5 "r"] := rfl
    rw [keysUnique, h2] at h
    simp at h
  · have hf : ceDB2.confirmations.filter
        (fun c => c.key == generate_key "a@x.com" 5 "r") = ceDB2.confirmations := by
      have h0 : ceDB2.confirmations
          = [⟨0, 0, 5, generate_key "a@x.com" 5 "r"⟩,
             ⟨1, 0, 5, generate_key "a@x.com" 5 "r"⟩] := rfl
      rw [h0]
      simp
    have h0 : ceDB2.confirmations
        = [⟨0, 0, 5, generate_key "a@x.com" 5 "r"⟩,
           ⟨1, 0, 5, generate_key "a@x.com" 5 "r"⟩] := rfl
    rw [confirm_email, getOne, hf, h0]

/- ---------------------------------------------------------------- -/
/- C7: expiration sweep                                             -/
/- ---------------------------------------------------------------- -/

theorem sweepGo_confirmations (s : Settings) (tnow : Int)
    (L : List EmailConfirmation) (db : DB) :
    (L.foldl (fun acc c =>
        if key_expired s tnow c then deleteConfirmation acc c.id else acc) db).confirmations
      = db.confirmations.filter
          (fun x => !(L.any (fun c => key_expired s tnow c && x.id == c.id))) := by
  induction L generalizing db with
  | nil => simp
  | cons c L ih =>
    by_cases hc : key_expired s tnow c
    · rw [List.foldl_cons, if_pos hc, ih]
      show (db.confirmations.filter (fun x => !(x.id == c.id))).filter _ = _
      rw [List.filter_filter]
      refine List.filter_congr ?_
      intro x _
      cases hid : x.id == c.id <;> simp [hc, hid]
    · rw [List.foldl_cons, if_neg hc, ih]
      refine List.filter_congr ?_
      intro x _
      simp [hc]

theorem sweepGo_frame (s : Settings) (tnow : Int)
    (L : List EmailConfirmation) (db : DB) :
    (L.foldl (fun acc c =>
        if key_expired s tnow c then deleteConfirmation acc c.id else acc) db).users
        = db.users ∧
    (L.foldl (fun acc c =>
        if key_expired s tnow c then deleteConfirmation acc c.id else acc) db).addresses
        = db.addresses ∧
    (L.foldl (fun acc c =>
        if key_expired s tnow c then deleteConfirmation acc c.id else acc) db).nextAddressId
        = db.nextAddressId ∧
    (L.foldl (fun acc c =>
        if key_expired s tnow c then deleteConfirmation acc c.id else acc) db).nextConfirmationId
        = db.nextConfirmationId := by
  induction L generalizing db with
  | nil => exact ⟨rfl, rfl, rfl, rfl⟩
  | cons c L ih =>
    rw [List.foldl_cons]
    by_cases hc : key_expired s tnow c
    · rw [if_pos hc]
      exact ih (deleteConfirmation db c.id)
    · rw [if_neg hc]
      exact ih db

theorem foldl_sweep_id (s : Settings) (tnow : Int)
    (L : List EmailConfirmation) (db : DB)
    (h : ∀ c ∈ L, key_expired s tnow c = false) :
    L.foldl (fun acc c =>
        if key_expired s tnow c then deleteConfirmation acc c.id else acc) db = db := by
  induction L generalizing db with
  | nil => rfl
  | cons c L ih =>
    rw [List.foldl_cons, if_neg (by simp [h c (by simp)])]
    exact ih db (fun x hx => h x (by simp [hx]))

/-- C7: the sweep deletes exactly the expired confirmations (assuming
distinct primary keys), touches no other table, and is idempotent: a second
run with no time advance deletes nothing. -/
theorem delete_expired_spec (s : Settings) (tnow : Int) (db : DB)
    (hids : (db.confirmations.map (fun c => c.id)).Nodup) :
    (delete_expired_confirmations s tnow db).confirmations
        = db.confirmations.filter (fun c => !(key_expired s tnow c)) ∧
    (∀ c ∈ db.confirmations, key_expired s tnow c = true →
        c ∉ (delete_expired_confirmations s tnow db).confirmations) ∧
    (∀ c ∈ db.confirmations, key_expired s tnow c = false →
        c ∈ (delete_expired_confirmations s tnow db).confirmations) ∧
    (delete_expired_confirmations s tnow db).users = db.users ∧
    (delete_expired_confirmations s tnow db).addresses = db.addresses ∧
    delete_expired_confirmations s tnow (delete_expired_confirmations s tnow db)
      = delete_expired_confirmations s tnow db := by
  have hmain : (delete_expired_confirmations s tnow db).confirmations
      = db.confirmations.filter (fun c => !(key_expired s tnow c)) := by
    rw [delete_expired_confirmations, sweepGo_confirmations]
    refine List.filter_congr ?_
    intro x hx
    have : (db.confirmations.any (fun c => key_expired s tnow c && x.id == c.id))
        = key_expired s tnow x := by
      cases hexp : key_expired s tnow x
      · rw [List.any_eq_false]
        intro c hc
        intro hcontra
        have h12 : key_expired s tnow c = true ∧ x.id = c.id := by
          simpa using hcontra
        have hxc : x = c :=
          List.inj_on_of_nodup_map hids hx hc h12.2
        have h1 := h12.1
        rw [← hxc, hexp] at h1
        exact absurd h1 (by decide)
      · rw [List.any_eq_true]
        exact ⟨x, hx, by simp [hexp]⟩
    rw [this]
  refine ⟨hmain, ?_, ?_, (sweepGo_frame s tnow _ db).1, (sweepGo_frame s tnow _ db).2.1, ?_⟩
  · intro c hc hexp hmem
    rw [hmain] at hmem
    have := (List.mem_filter.mp hmem).2
    rw [hexp] at this
    cases this
  · intro c hc hexp
    rw [hmain]
    exact List.mem_filter.mpr ⟨hc, by rw [hexp]; rfl⟩
  · have hnone : ∀ c ∈ (delete_expired_confirmations s tnow db).confirmations,
        key_expired s tnow c = false := by
      intro c hc
      rw [hmain] at hc
      have := (List.mem_filter.mp hc).2
      simpa using this
    show (delete_expired_confirmations s tnow db).confirmations.foldl _ _ = _
    exact foldl_sweep_id s tnow _ _ hnone

theorem delete_expired_spec_witness :
    (delete_expired_confirmations ⟨none, none⟩ 604800
        ⟨[], [], [⟨100, 10, 0, "kA"⟩, ⟨101, 10, 300000, "kB"⟩], 0, 102⟩).confirmations
      = [⟨101, 10, 300000, "kB"⟩] ∧
    delete_expired_confirmations ⟨none, none⟩ 604800
        (delete_expired_confirmations ⟨none, none⟩ 604800
          ⟨[], [], [⟨100, 10, 0, "kA"⟩, ⟨101, 10, 300000, "kB"⟩], 0, 102⟩)
      = delete_expired_confirmations ⟨none, none⟩ 604800
          ⟨[], [], [⟨100, 10, 0, "kA"⟩, ⟨101, 10, 300000, "kB"⟩], 0, 102⟩ := by
  have h := delete_expired_spec ⟨none, none⟩ 604800
    ⟨[], [], [⟨100, 10, 0, "kA"⟩, ⟨101, 10, 300000, "kB"⟩], 0, 102⟩ (by decide)
  exact ⟨h.1.trans (by decide), h.2.2.2.2.2⟩

theorem saveAddress_users (db : DB) (a : EmailAddress) :
    (saveAddress db a).users = db.users := rfl

theorem saveAddress_addresses (db : DB) (a : EmailAddress) :
    (saveAddress db a).addresses
      = db.addresses.map (fun x => if x.id == a.id then a else x) := rfl

theorem saveUser_users (db : DB) (w : UserProfile) :
    (saveUser db w).users
      = db.users.map (fun x => if x.id == w.id then w else x) := rfl

theorem saveUser_addresses (db : DB) (w : UserProfile) :
    (saveUser db w).addresses = db.addresses := rfl

theorem clearOld_none (db : DB) : clearOldPrimary db none = db := rfl

theorem clearOld_some (db : DB) (old : EmailAddress) :
    clearOldPrimary db (some old) = saveAddress db { old with primary := false } := rfl

theorem clearOld_users (db : DB) (o : Option EmailAddress) :
    (clearOldPrimary db o).users = db.users := by
  cases o <;> rfl

theorem set_as_primary_eq (s : Settings) (db : DB) (self : EmailAddress)
    (oldp : Option EmailAddress)
    (hold : get_primary db self.user = .ok oldp)
    (u : UserProfile)
    (hu : db.users.find? (fun x => x.id == self.user) = some u) :
    set_as_primary s db self
      = .ok (saveUser (saveAddress (clearOldPrimary db oldp) { self with primary := true })
               (if overwriteUsername s
                then { u with email := self.email, username := self.email }
                else { u with email := self.email }),
             { self with primary := true }) := by
  rw [set_as_primary, hold]
  dsimp only
  have hgu : getUser (saveAddress (clearOldPrimary db oldp) { self with primary := true })
      self.user = .ok u := by
    rw [getUser, saveAddress_users, clearOld_users, hu]
  rw [hgu]

theorem get_primary_eq (db : DB) (uid : Nat) (h : atMostOnePrimary db uid) :
    get_primary db uid
      = .ok ((db.addresses.filter (fun a => a.user == uid && a.primary)).head?) := by
  unfold atMostOnePrimary at h
  rw [get_primary, getOne]
  cases hf : db.addresses.filter (fun a => a.user == uid && a.primary) with
  | nil => rfl
  | cons a t =>
    cases t with
    | nil => rfl
    | cons b t2 =>
      rw [hf] at h
      simp only [List.length_cons] at h
      omega

theorem find?_map_pres {α : Type} (h : α → α) (p : α → Bool) (l : List α)
    (hp : ∀ x, p (h x) = p x) :
    (l.map h).find? p = (l.find? p).map h := by
  induction l with
  | nil => rfl
  | cons x xs ih =>
    by_cases hx : p x
    · rw [List.map_cons, List.find?_cons_of_pos _ (by rw [hp]; exact hx),
        List.find?_cons_of_pos _ hx, Option.map_some']
    · rw [List.map_cons, List.find?_cons_of_neg _ (by rw [hp]; exact hx),
        List.find?_cons_of_neg _ hx, ih]

theorem saveUser_find (db : DB) (w : UserProfile) (uid : Nat) (u : UserProfile)
    (hu : db.users.find? (fun x => x.id == uid) = some u)
    (hw : w.id = u.id) :
    (saveUser db w).users.find? (fun x => x.id == uid) = some w := by
  rw [saveUser_users]
  have hp : ∀ x : UserProfile,
      ((if x.id == w.id then w else x).id == uid) = (x.id == uid) := by
    intro x
    by_cases hx : x.id == w.id
    · have h1 : x.id = w.id := by simpa using hx
      rw [if_pos hx, ← h1]
    · rw [if_neg hx]
  rw [find?_map_pres _ _ _ hp, hu, Option.map_some']
  have : u.id == w.id := by simp [hw]
  rw [if_pos this]

theorem saveUser_ids (db : DB) (w : UserProfile) :
    (saveUser db w).users.map (fun x => x.id) = db.users.map (fun x => x.id) := by
  rw [saveUser_users, List.map_map]
  refine List.map_congr_left ?_
  intro x _
  by_cases hx : x.id == w.id
  · have h1 : x.id = w.id := by simpa using hx
    simp [Function.comp, hx, h1]
  · simp [Function.comp, hx]

theorem saveAddress_ids (db : DB) (w : EmailAddress) :
    (saveAddress db w).addresses.map (fun a => a.id)
      = db.addresses.map (fun a => a.id) := by
  rw [saveAddress_addresses, List.map_map]
  refine List.map_congr_left ?_
  intro x _
  by_cases hx : x.id == w.id
  · have h1 : x.id = w.id := by simpa using hx
    simp [Function.comp, hx, h1]
  · simp [Function.comp, hx]

theorem set_as_primary_master (s : Settings) (db : DB) (self : EmailAddress)
    (hmemid : ∃ x ∈ db.addresses, x.id = self.id)
    (honce : atMostOnePrimary db self.user)
    (huser : (db.users.find? (fun u => u.id == self.user)).isSome) :
    ∃ db2, set_as_primary s db self = .ok (db2, { self with primary := true })
      ∧ (∀ a ∈ db2.addresses, a.id = self.id → a = { self with primary := true })
      ∧ { self with primary := true } ∈ db2.addresses
      ∧ (∀ a ∈ db2.addresses, a.user = self.user → a.primary = true → a.id = self.id)
      ∧ db2.addresses.map (fun a => a.id) = db.addresses.map (fun a => a.id)
      ∧ (∃ u2, db2.users.find? (fun x => x.id == self.user) = some u2
           ∧ u2.email = self.email
           ∧ (overwriteUsername s = true → u2.username = self.email))
      ∧ db2.users.map (fun x => x.id) = db.users.map (fun x => x.id)
      ∧ db2.confirmations = db.confirmations
      ∧ db2.nextAddressId = db.nextAddressId
      ∧ db2.nextConfirmationId = db.nextConfirmationId := by
  obtain ⟨u, hu⟩ := Option.isSome_iff_exists.mp huser
  have hupred := List.find?_some hu
  have huid : u.id = self.user := by simpa using hupred
  obtain ⟨x0, hx0, hx0id⟩ := hmemid
  have hold := get_primary_eq db self.user honce
  have honce' := honce
  unfold atMostOnePrimary at honce'
  cases hf : db.addresses.filter (fun a => a.user == self.user && a.primary) with
  | nil =>
    rw [hf] at hold
    have heq := set_as_primary_eq s db self none hold u hu
    rw [clearOld_none] at heq
    refine ⟨_, heq, ?_, ?_, ?_, ?_, ?_, ?_, ?_, ?_, ?_⟩
    · intro a ha haid
      rw [saveUser_addresses, saveAddress_addresses, List.mem_map] at ha
      obtain ⟨x, hx, hfx⟩ := ha
      by_cases hxid : x.id == ({ self with primary := true } : EmailAddress).id
      · rw [if_pos hxid] at hfx
        exact hfx.symm
      · rw [if_neg hxid] at hfx
        exfalso
        rw [← hfx] at haid
        exact hxid (by simpa using haid)
    · rw [saveUser_addresses, saveAddress_addresses, List.mem_map]
      refine ⟨x0, hx0, ?_⟩
      rw [if_pos (by simpa using hx0id)]
    · intro a ha hau hap
      rw [saveUser_addresses, saveAddress_addresses, List.mem_map] at ha
      obtain ⟨x, hx, hfx⟩ := ha
      by_cases hxid : x.id == ({ self with primary := true } : EmailAddress).id
      · rw [if_pos hxid] at hfx
        rw [← hfx]
      · rw [if_neg hxid] at hfx
        exfalso
        have hmemf : x ∈ db.addresses.filter (fun a => a.user == self.user && a.primary) :=
          List.mem_filter.mpr ⟨hx, by rw [hfx]; simp [hau, hap]⟩
        rw [hf] at hmemf
        cases hmemf
    · rw [saveUser_addresses]
      exact saveAddress_ids db { self with primary := true }
    · refine ⟨if overwriteUsername s
          then { u with email := self.email, username := self.email }
          else { u with email := self.email }, ?_, ?_, ?_⟩
      · refine saveUser_find _ _ _ u ?_ ?_
        · rw [saveAddress_users]
          exact hu
        · by_cases hov : overwriteUsername s <;> simp [hov]
      · by_cases hov : overwriteUsername s <;> simp [hov]
      · intro hov
        simp [hov]
    · rw [saveUser_ids, saveAddress_users]
    · rfl
    · rfl
    · rfl
  | cons old t =>
    rw [hf] at honce'
    have ht : t = [] := by
      simp only [List.length_cons] at honce'
      exact List.eq_nil_of_length_eq_zero (by omega)
    subst ht
    rw [hf] at hold
    have holdmem : old ∈ db.addresses.filter (fun a => a.user == self.user && a.primary) := by
      rw [hf]
      exact List.mem_singleton_self old
    have hOldMem : old ∈ db.addresses := (List.mem_filter.mp holdmem).1
    have hOldPred : (old.user == self.user && old.primary) = true :=
      (List.mem_filter.mp holdmem).2
    have hOldBoth : old.user = self.user ∧ old.primary = true := by
      simpa using hOldPred
    have hOldUser : old.user = self.user := hOldBoth.1
    have hOldPrim : old.primary = true := hOldBoth.2
    have hOnly : ∀ x ∈ db.addresses, x.user = self.user → x.primary = true → x = old := by
      intro x hx h1 h2
      have hmemf : x ∈ db.addresses.filter (fun a => a.user == self.user && a.primary) :=
        List.mem_filter.mpr ⟨hx, by simp [h1, h2]⟩
      rw [hf] at hmemf
      simpa using hmemf
    have heq := set_as_primary_eq s db self (some old) hold u hu
    rw [clearOld_some] at heq
    refine ⟨_, heq, ?_, ?_, ?_, ?_, ?_, ?_, ?_, ?_, ?_⟩
    · intro a ha haid
      rw [saveUser_addresses, saveAddress_addresses, saveAddress_addresses,
        List.map_map, List.mem_map] at ha
      obtain ⟨x, hx, hfx⟩ := ha
      simp only [Function.comp] at hfx
      by_cases hx1 : x.id == ({ old with primary := false } : EmailAddress).id
      · rw [if_pos hx1] at hfx
        by_cases hx2 : ({ old with primary := false } : EmailAddress).id
            == ({ self with primary := true } : EmailAddress).id
        · rw [if_pos hx2] at hfx
          exact hfx.symm
        · rw [if_neg hx2] at hfx
          exfalso
          rw [← hfx] at haid
          exact hx2 (by simpa using haid)
      · rw [if_neg hx1] at hfx
        by_cases hx3 : x.id == ({ self with primary := true } : EmailAddress).id
        · rw [if_pos hx3] at hfx
          exact hfx.symm
        · rw [if_neg hx3] at hfx
          exfalso
          rw [← hfx] at haid
          exact hx3 (by simpa using haid)
    · rw [saveUser_addresses, saveAddress_addresses, saveAddress_addresses,
        List.map_map, List.mem_map]
      refine ⟨x0, hx0, ?_⟩
      simp only [Function.comp]
      by_cases hx1 : x0.id == ({ old with primary := false } : EmailAddress).id
      · rw [if_pos hx1]
        have : old.id = self.id := by
          have h1 : x0.id = old.id := by simpa using hx1
          rw [← h1, hx0id]
        rw [if_pos (by simpa using this)]
      · rw [if_neg hx1, if_pos (by simpa using hx0id)]
    · intro a ha hau hap
      rw [saveUser_addresses, saveAddress_addresses, saveAddress_addresses,
        List.map_map, List.mem_map] at ha
      obtain ⟨x, hx, hfx⟩ := ha
      simp only [Function.comp] at hfx
      by_cases hx1 : x.id == ({ old with primary := false } : EmailAddress).id
      · rw [if_pos hx1] at hfx
        by_cases hx2 : ({ old with primary := false } : EmailAddress).id
            == ({ self with primary := true } : EmailAddress).id
        · rw [if_pos hx2] at hfx
          rw [← hfx]
        · rw [if_neg hx2] at hfx
          exfalso
          rw [← hfx] at hap
          simp at hap
      · rw [if_neg hx1] at hfx
        by_cases hx3 : x.id == ({ self with primary := true } : EmailAddress).id
        · rw [if_pos hx3] at hfx
          rw [← hfx]
        · rw [if_neg hx3] at hfx
          exfalso
          have hxold : x = old := hOnly x hx (by rw [hfx]; exact hau) (by rw [hfx]; exact hap)
          refine hx1 ?_
          rw [hxold]
          simp
    · rw [saveUser_addresses, saveAddress_ids, saveAddress_ids]
    · refine ⟨if overwriteUsername s
          then { u with email := self.email, username := self.email }
          else { u with email := self.email }, ?_, ?_, ?_⟩
      · refine saveUser_find _ _ _ u ?_ ?_
        · rw [saveAddress_users, saveAddress_users]
          exact hu
        · by_cases hov : overwriteUsername s <;> simp [hov]
      · by_cases hov : overwriteUsername s <;> simp [hov]
      · intro hov
        simp [hov]
    · rw [saveUser_ids, saveAddress_users, saveAddress_users]
    · rfl
    · rfl
    · rfl

theorem setPrimaryTrue_eq_self {a : EmailAddress} (h : a.primary = true) :
    { a with primary := true } = a := by
  obtain ⟨i, us, e, v, p⟩ := a
  simp_all

theorem DB_eq_ext {d1 d2 : DB} (h1 : d1.users = d2.users)
    (h2 : d1.addresses = d2.addresses) (h3 : d1.confirmations = d2.confirmations)
    (h4 : d1.nextAddressId = d2.nextAddressId)
    (h5 : d1.nextConfirmationId = d2.nextConfirmationId) : d1 = d2 := by
  obtain ⟨a, b, c, d, e⟩ := d1
  obtain ⟨a2, b2, c2, d2a, e2⟩ := d2
  simp_all

theorem filter_eq_singleton_of (p : EmailAddress → Bool) (l : List EmailAddress)
    (v : EmailAddress) (hn : (l.map (fun a => a.id)).Nodup) (hv : v ∈ l)
    (hiff : ∀ x ∈ l, p x = true ↔ x = v) : l.filter p = [v] := by
  induction l with
  | nil => cases hv
  | cons x xs ih =>
    rw [List.map_cons, List.nodup_cons] at hn
    by_cases hx : p x
    · have hxv : x = v := (hiff x (by simp)).mp hx
      have hxs : xs.filter p = [] := by
        rw [List.filter_eq_nil_iff]
        intro a ha hpa
        have hav : a = v := (hiff a (by simp [ha])).mp hpa
        refine hn.1 ?_
        rw [List.mem_map]
        exact ⟨a, ha, by rw [hav, hxv]⟩
      rw [List.filter_cons, if_pos hx, hxs, hxv]
    · have hvxs : v ∈ xs := by
        rcases List.mem_cons.mp hv with h | h
        · exact absurd ((hiff x (by simp)).mpr h.symm) hx
        · exact h
      rw [List.filter_cons, if_neg hx]
      exact ih hn.2 hvxs (fun y hy => hiff y (by simp [hy]))

theorem saveUser_id_of_find (db : DB) (u : UserProfile) (uid : Nat)
    (huids : (db.users.map (fun x => x.id)).Nodup)
    (hfind : db.users.find? (fun x => x.id == uid) = some u) :
    saveUser db u = db := by
  have humem : u ∈ db.users := List.mem_of_find?_eq_some hfind
  refine DB_eq_ext ?_ rfl rfl rfl rfl
  rw [saveUser_users]
  refine map_eq_self_of_mem ?_
  intro x hx
  by_cases hxid : x.id == u.id
  · have h1 : x.id = u.id := by simpa using hxid
    have : x = u := List.inj_on_of_nodup_map huids hx humem h1
    rw [if_pos hxid, this]
  · rw [if_neg hxid]

theorem set_as_primary_fixed (s : Settings) (db : DB) (self : EmailAddress)
    (hprim : self.primary = true)
    (h2 : ∀ a ∈ db.addresses, a.id = self.id → a = self)
    (hmem : self ∈ db.addresses)
    (h4 : ∀ a ∈ db.addresses, a.user = self.user → a.primary = true → a.id = self.id)
    (hids : (db.addresses.map (fun a => a.id)).Nodup)
    (huids : (db.users.map (fun x => x.id)).Nodup)
    (hu : ∃ u, db.users.find? (fun x => x.id == self.user) = some u
          ∧ u.email = self.email
          ∧ (overwriteUsername s = true → u.username = self.email)) :
    set_as_primary s db self = .ok (db, self) := by
  obtain ⟨u, hufind, hue, hun⟩ := hu
  have hfilter : db.addresses.filter (fun a => a.user == self.user && a.primary) = [self] := by
    refine filter_eq_singleton_of _ _ _ hids hmem ?_
    intro x hx
    constructor
    · intro hpx
      have hx2 : x.user = self.user ∧ x.primary = true := by simpa using hpx
      exact h2 x hx (h4 x hx hx2.1 hx2.2)
    · intro hxv
      subst hxv
      simp [hprim]
  have honce : atMostOnePrimary db self.user := by
    unfold atMostOnePrimary
    rw [hfilter]
    simp
  have hold := get_primary_eq db self.user honce
  rw [hfilter] at hold
  have heq := set_as_primary_eq s db self (some self) hold u hufind
  rw [clearOld_some] at heq
  have hXdb : saveAddress (saveAddress db { self with primary := false })
      { self with primary := true } = db := by
    refine DB_eq_ext rfl ?_ rfl rfl rfl
    rw [saveAddress_addresses, saveAddress_addresses, List.map_map]
    refine map_eq_self_of_mem ?_
    intro x hx
    simp only [Function.comp]
    by_cases hx1 : x.id == ({ self with primary := false } : EmailAddress).id
    · have hxeq : x = self := h2 x hx (by simpa using hx1)
      rw [if_pos hx1]
      rw [if_pos (by simp)]
      rw [setPrimaryTrue_eq_self hprim, hxeq]
    · rw [if_neg hx1]
      rw [if_neg (by simpa using hx1)]
  have hufu : (if overwriteUsername s
      then { u with email := self.email, username := self.email }
      else { u with email := self.email }) = u := by
    by_cases hov : overwriteUsername s
    · rw [if_pos hov]
      obtain ⟨ui, un, ue⟩ := u
      have h1 : ue = self.email := hue
      have h2 : un = self.email := hun hov
      rw [h1, h2]
    · rw [if_neg hov]
      obtain ⟨ui, un, ue⟩ := u
      have h1 : ue = self.email := hue
      rw [h1]
  rw [heq, hXdb, hufu, saveUser_id_of_find db u self.user huids hufind,
    setPrimaryTrue_eq_self hprim]

/-- C1: assuming at most one primary address exists for the user beforehand
(and well-formed primary keys), set_as_primary succeeds and afterwards
exactly the target address is primary for that user: every address of the
user is primary iff it is the target, any previously primary address is
demoted, and the at-most-one-primary invariant holds again. -/
theorem set_as_primary_single (s : Settings) (db : DB) (self : EmailAddress)
    (hmem : self ∈ db.addresses)
    (hids : (db.addresses.map (fun a => a.id)).Nodup)
    (honce : atMostOnePrimary db self.user)
    (huser : (db.users.find? (fun u => u.id == self.user)).isSome) :
    ∃ db2, set_as_primary s db self = .ok (db2, { self with primary := true })
      ∧ (∀ a ∈ db2.addresses, a.user = self.user → (a.primary = true ↔ a.id = self.id))
      ∧ atMostOnePrimary db2 self.user := by
  obtain ⟨db2, heq, h2, h3, h4, h5, h6, h7, h8, h9, h10⟩ :=
    set_as_primary_master s db self ⟨self, hmem, rfl⟩ honce huser
  refine ⟨db2, heq, ?_, ?_⟩
  · intro a ha hau
    constructor
    · exact h4 a ha hau
    · intro haid
      rw [h2 a ha haid]
  · unfold atMostOnePrimary
    have hnodup2 : db2.addresses.Nodup := by
      have hmids : (db2.addresses.map (fun a => a.id)).Nodup := by
        rw [h5]
        exact hids
      exact List.Nodup.of_map _ hmids
    have hfn : (db2.addresses.filter (fun a => a.user == self.user && a.primary)).Nodup :=
      hnodup2.sublist (List.filter_sublist db2.addresses)
    refine nodup_all_eq_length_le_one hfn ({ self with primary := true }) ?_
    intro x hxf
    have hx := List.mem_filter.mp hxf
    have hx2 : x.user = self.user ∧ x.primary = true := by simpa using hx.2
    exact h2 x hx.1 (h4 x hx.1 hx2.1 hx2.2)

/-- C5: set_as_primary is idempotent: both calls succeed with no error and
the second call returns exactly the state produced by the first (all primary
flags and the user profile included); promoting an already-primary address
is a no-op success. -/
theorem set_as_primary_idem (s : Settings) (db : DB) (self : EmailAddress)
    (hmem : self ∈ db.addresses)
    (hids : (db.addresses.map (fun a => a.id)).Nodup)
    (huids : (db.users.map (fun x => x.id)).Nodup)
    (honce : atMostOnePrimary db self.user)
    (huser : (db.users.find? (fun u => u.id == self.user)).isSome) :
    ∃ db2 self2, set_as_primary s db self = .ok (db2, self2)
      ∧ set_as_primary s db2 self2 = .ok (db2, self2) := by
  obtain ⟨db2, heq, h2, h3, h4, h5, h6, h7, h8, h9, h10⟩ :=
    set_as_primary_master s db self ⟨self, hmem, rfl⟩ honce huser
  refine ⟨db2, { self with primary := true }, heq, ?_⟩
  refine set_as_primary_fixed s db2 { self with primary := true } rfl ?_ h3 ?_ ?_ ?_ ?_
  · intro a ha haid
    exact h2 a ha haid
  · intro a ha hau hap
    exact h4 a ha hau hap
  · rw [h5]
    exact hids
  · rw [h7]
    exact huids
  · obtain ⟨u2, hfu, he, hn⟩ := h6
    exact ⟨u2, hfu, he, hn⟩

/-- C10: for a live key, confirm_email with make_primary=False changes only
the verified flag of the confirmed address: users (hence the profile email),
confirmations, counters and all other address rows are untouched, and the
target row keeps its user, email and primary fields. -/
theorem confirm_email_frame (s : Settings) (tnow : Int) (db : DB) (k : String)
    (c : EmailConfirmation) (ea0 : EmailAddress)
    (hkey : db.confirmations.filter (fun x => x.key == k) = [c])
    (hexp : key_expired s tnow c = false)
    (hfind : db.addresses.find? (fun a => a.id == c.email_address) = some ea0) :
    ∃ db1, confirm_email s tnow db k false = .ok (db1, some { ea0 with verified := true })
      ∧ db1.users = db.users
      ∧ db1.confirmations = db.confirmations
      ∧ db1.nextAddressId = db.nextAddressId
      ∧ db1.nextConfirmationId = db.nextConfirmationId
      ∧ db1.addresses.map (fun a => a.id) = db.addresses.map (fun a => a.id)
      ∧ (∀ a ∈ db1.addresses, a.id ≠ ea0.id → a ∈ db.addresses)
      ∧ (∀ a ∈ db.addresses, a.id ≠ ea0.id → a ∈ db1.addresses)
      ∧ (∀ a ∈ db1.addresses, a.id = ea0.id →
          a.user = ea0.user ∧ a.email = ea0.email ∧ a.primary = ea0.primary
            ∧ a.verified = true) := by
  have heq : confirm_email s tnow db k false
      = .ok (saveAddress db { ea0 with verified := true },
             some { ea0 with verified := true }) := by
    rw [confirm_email, getOne, hkey]
    dsimp only
    rw [hexp]
    rw [if_neg (by decide)]
    rw [getAddress, hfind]
    dsimp only
    rw [if_neg (by decide)]
  refine ⟨_, heq, rfl, rfl, rfl, rfl, saveAddress_ids db _, ?_, ?_, ?_⟩
  · intro a ha hne
    rw [saveAddress_addresses, List.mem_map] at ha
    obtain ⟨x, hx, hfx⟩ := ha
    by_cases hxid : x.id == ({ ea0 with verified := true } : EmailAddress).id
    · exfalso
      rw [if_pos hxid] at hfx
      rw [← hfx] at hne
      exact hne rfl
    · rw [if_neg hxid] at hfx
      rw [← hfx]
      exact hx
  · intro a ha hne
    rw [saveAddress_addresses, List.mem_map]
    refine ⟨a, ha, ?_⟩
    rw [if_neg (by simpa using hne)]
  · intro a ha haid
    rw [saveAddress_addresses, List.mem_map] at ha
    obtain ⟨x, hx, hfx⟩ := ha
    by_cases hxid : x.id == ({ ea0 with verified := true } : EmailAddress).id
    · rw [if_pos hxid] at hfx
      rw [← hfx]
      exact ⟨rfl, rfl, rfl, rfl⟩
    · exfalso
      rw [if_neg hxid] at hfx
      rw [← hfx] at haid
      exact hxid (by simpa using haid)

/-- C3: for a confirmation whose key is live, confirm_email marks the
referenced address verified and returns it; calling confirm_email again
with the same key (no sweep, same instant) succeeds again and is
idempotent: the database and the returned address are exactly those after
the first call, so primary flags are unchanged by the second call. -/
theorem confirm_email_idem (s : Settings) (tnow : Int) (db : DB) (k : String)
    (c : EmailConfirmation) (ea0 : EmailAddress)
    (hkey : db.confirmations.filter (fun x => x.key == k) = [c])
    (hexp : key_expired s tnow c = false)
    (hfind : db.addresses.find? (fun a => a.id == c.email_address) = some ea0)
    (hids : (db.addresses.map (fun a => a.id)).Nodup)
    (huids : (db.users.map (fun x => x.id)).Nodup)
    (honce : atMostOnePrimary db ea0.user)
    (huser : (db.users.find? (fun u => u.id == ea0.user)).isSome) :
    ∃ db1 ea1, confirm_email s tnow db k true = .ok (db1, some ea1)
      ∧ ea1.verified = true ∧ ea1.id = ea0.id
      ∧ confirm_email s tnow db1 k true = .ok (db1, some ea1) := by
  have hmem0 : ea0 ∈ db.addresses := List.mem_of_find?_eq_some hfind
  have hcid : ea0.id = c.email_address := by simpa using List.find?_some hfind
  obtain ⟨dbA, heqA0, h20, h30, h40, h5, h6, h7, h8, h9, h10⟩ :=
    set_as_primary_master s db { ea0 with verified := true } ⟨ea0, hmem0, rfl⟩ honce huser
  -- restate with the promoted record as a plain constructor literal
  have heqA : set_as_primary s db { ea0 with verified := true }
      = .ok (dbA, (⟨ea0.id, ea0.user, ea0.email, true, true⟩ : EmailAddress)) := heqA0
  have h2 : ∀ a ∈ dbA.addresses, a.id = ea0.id
      → a = (⟨ea0.id, ea0.user, ea0.email, true, true⟩ : EmailAddress) := h20
  have h3 : (⟨ea0.id, ea0.user, ea0.email, true, true⟩ : EmailAddress) ∈ dbA.addresses := h30
  have h4 : ∀ a ∈ dbA.addresses, a.user = ea0.user → a.primary = true → a.id = ea0.id := h40
  have hSave : saveAddress dbA (⟨ea0.id, ea0.user, ea0.email, true, true⟩ : EmailAddress)
      = dbA := by
    refine DB_eq_ext rfl ?_ rfl rfl rfl
    rw [saveAddress_addresses]
    refine map_eq_self_of_mem ?_
    intro x hx
    by_cases hxid : x.id == ((⟨ea0.id, ea0.user, ea0.email, true, true⟩ : EmailAddress)).id
    · rw [if_pos hxid]
      exact (h2 x hx (by simpa using hxid)).symm
    · rw [if_neg hxid]
  have heq1 : confirm_email s tnow db k true
      = .ok (dbA, some (⟨ea0.id, ea0.user, ea0.email, true, true⟩ : EmailAddress)) := by
    rw [confirm_email, getOne, hkey]
    dsimp only
    rw [hexp]
    rw [if_neg (by decide)]
    rw [getAddress, hfind]
    dsimp only
    rw [if_pos rfl]
    rw [heqA]
    dsimp only
    rw [hSave]
  have hfind2 : dbA.addresses.find? (fun a => a.id == c.email_address)
      = some (⟨ea0.id, ea0.user, ea0.email, true, true⟩ : EmailAddress) := by
    have hsome : (dbA.addresses.find? (fun a => a.id == c.email_address)).isSome := by
      rw [List.find?_isSome]
      refine ⟨_, h3, ?_⟩
      show ((ea0.id : Nat) == c.email_address) = true
      rw [← hcid]
      simp
    obtain ⟨y, hy⟩ := Option.isSome_iff_exists.mp hsome
    have hymem := List.mem_of_find?_eq_some hy
    have hypred := List.find?_some hy
    have hyid : y.id = ea0.id := by
      have hyc : y.id = c.email_address := by simpa using hypred
      rw [hyc, ← hcid]
    rw [hy, h2 y hymem hyid]
  have hget2 : getOne (fun x => x.key == k) dbA.confirmations = .ok c := by
    rw [getOne, h8, hkey]
  have hfix : set_as_primary s dbA (⟨ea0.id, ea0.user, ea0.email, true, true⟩ : EmailAddress)
      = .ok (dbA, (⟨ea0.id, ea0.user, ea0.email, true, true⟩ : EmailAddress)) := by
    refine set_as_primary_fixed s dbA _ rfl ?_ h3 ?_ ?_ ?_ ?_
    · intro a ha haid
      exact h2 a ha haid
    · intro a ha hau hap
      exact h4 a ha hau hap
    · rw [h5]
      exact hids
    · rw [h7]
      exact huids
    · obtain ⟨u2, hfu, he, hn⟩ := h6
      exact ⟨u2, hfu, he, hn⟩
  have heq2 : confirm_email s tnow dbA k true
      = .ok (dbA, some (⟨ea0.id, ea0.user, ea0.email, true, true⟩ : EmailAddress)) := by
    rw [confirm_email, hget2]
    dsimp only
    rw [hexp]
    rw [if_neg (by decide)]
    rw [getAddress, hfind2]
    dsimp only
    rw [if_pos rfl]
    rw [hfix]
    dsimp only
    rw [hSave]
  exact ⟨dbA, ⟨ea0.id, ea0.user, ea0.email, true, true⟩, heq1, rfl, rfl, heq2⟩

theorem set_as_primary_single_witness :
    ∃ db2, set_as_primary ⟨none, none⟩
        ⟨[⟨1, "u", "o@x.com"⟩],
         [⟨10, 1, "a@x.com", false, false⟩, ⟨11, 1, "b@x.com", true, true⟩],
         [⟨100, 10, 0, "kA"⟩], 12, 101⟩
        ⟨10, 1, "a@x.com", false, false⟩
      = .ok (db2, ⟨10, 1, "a@x.com", false, true⟩)
      ∧ (∀ a ∈ db2.addresses, a.user = 1 → (a.primary = true ↔ a.id = 10))
      ∧ atMostOnePrimary db2 1 :=
  set_as_primary_single ⟨none, none⟩
    ⟨[⟨1, "u", "o@x.com"⟩],
     [⟨10, 1, "a@x.com", false, false⟩, ⟨11, 1, "b@x.com", true, true⟩],
     [⟨100, 10, 0, "kA"⟩], 12, 101⟩
    ⟨10, 1, "a@x.com", false, false⟩
    (by decide) (by decide) (by decide) (by decide)

theorem set_as_primary_idem_witness :
    ∃ db2 self2, set_as_primary ⟨none, none⟩
        ⟨[⟨1, "u", "o@x.com"⟩],
         [⟨10, 1, "a@x.com", false, false⟩, ⟨11, 1, "b@x.com", true, true⟩],
         [⟨100, 10, 0, "kA"⟩], 12, 101⟩
        ⟨10, 1, "a@x.com", false, false⟩
      = .ok (db2, self2)
      ∧ set_as_primary ⟨none, none⟩ db2 self2 = .ok (db2, self2) :=
  set_as_primary_idem ⟨none, none⟩
    ⟨[⟨1, "u", "o@x.com"⟩],
     [⟨10, 1, "a@x.com", false, false⟩, ⟨11, 1, "b@x.com", true, true⟩],
     [⟨100, 10, 0, "kA"⟩], 12, 101⟩
    ⟨10, 1, "a@x.com", false, false⟩
    (by decide) (by decide) (by decide) (by decide) (by decide)

theorem confirm_email_idem_witness :
    ∃ db1 ea1, confirm_email ⟨none, none⟩ 5
        ⟨[⟨1, "u", "o@x.com"⟩],
         [⟨10, 1, "a@x.com", false, false⟩, ⟨11, 1, "b@x.com", true, true⟩],
         [⟨100, 10, 0, "kA"⟩], 12, 101⟩
        "kA" true = .ok (db1, some ea1)
      ∧ ea1.verified = true ∧ ea1.id = 10
      ∧ confirm_email ⟨none, none⟩ 5 db1 "kA" true = .ok (db1, some ea1) :=
  confirm_email_idem ⟨none, none⟩ 5
    ⟨[⟨1, "u", "o@x.com"⟩],
     [⟨10, 1, "a@x.com", false, false⟩, ⟨11, 1, "b@x.com", true, true⟩],
     [⟨100, 10, 0, "kA"⟩], 12, 101⟩
    "kA" ⟨100, 10, 0, "kA"⟩ ⟨10, 1, "a@x.com", false, false⟩
    (by decide) (by decide) (by decide) (by decide) (by decide) (by decide) (by decide)

theorem confirm_email_frame_witness :
    ∃ db1, confirm_email ⟨none, none⟩ 5
        ⟨[⟨1, "u", "o@x.com"⟩],
         [⟨10, 1, "a@x.com", false, false⟩, ⟨11, 1, "b@x.com", true, true⟩],
         [⟨100, 10, 0, "kA"⟩], 12, 101⟩
        "kA" false = .ok (db1, some ⟨10, 1, "a@x.com", true, false⟩)
      ∧ db1.users = [⟨1, "u", "o@x.com"⟩]
      ∧ db1.confirmations = [⟨100, 10, 0, "kA"⟩]
      ∧ db1.nextAddressId = 12
      ∧ db1.nextConfirmationId = 101
      ∧ db1.addresses.map (fun a => a.id) = [10, 11]
      ∧ (∀ a ∈ db1.addresses, a.id ≠ 10 →
          a ∈ [(⟨10, 1, "a@x.com", false, false⟩ : EmailAddress),
               ⟨11, 1, "b@x.com", true, true⟩])
      ∧ (∀ a ∈ [(⟨10, 1, "a@x.com", false, false⟩ : EmailAddress),
               ⟨11, 1, "b@x.com", true, true⟩], a.id ≠ 10 → a ∈ db1.addresses)
      ∧ (∀ a ∈ db1.addresses, a.id = 10 →
          a.user = 1 ∧ a.email = "a@x.com" ∧ a.primary = false ∧ a.verified = true) :=
  confirm_email_frame ⟨none, none⟩ 5
    ⟨[⟨1, "u", "o@x.com"⟩],
     [⟨10, 1, "a@x.com", false, false⟩, ⟨11, 1, "b@x.com", true, true⟩],
     [⟨100, 10, 0, "kA"⟩], 12, 101⟩
    "kA" ⟨100, 10, 0, "kA"⟩ ⟨10, 1, "a@x.com", false, false⟩
    (by decide) (by decide) (by decide)
